import Mathlib

/-
Verification of the b-rep kernel: a shallow embedding of the partial-object
builders (partial half-edge / global edge), the face-face intersection
algorithm and the face transform, together with theorems settling the
specified properties.

Scalars are modelled as rationals. Code of collaborating modules that is
not part of the embedded sources (the object store internals, the partial
curve and vertex builders, the surface-surface and curve-face intersection
algorithms, the cycle transform) is modelled from the specification; the
doc comment of each such definition starts with the words Modelled from
the spec.
-/

set_option linter.unusedVariables false
set_option linter.unreachableTactic false
set_option linter.unusedTactic false

namespace Fornjot

/-- Scalar type of the kernel. The code uses 64-bit floats; the model uses
exact rationals. -/
abbrev Scalar := ℚ

/-- Value of the TAU constant of the code: the exact rational value of the
64-bit floating-point representation of the number 2 times pi. -/
def Scalar.TAU : Scalar := 884279719003555 / 140737488355328

/-- Point or vector in the 2-dimensional parameter space of a surface. -/
structure Vec2 where
  x : Scalar
  y : Scalar
deriving DecidableEq, Repr

/-- Point or vector in 3-dimensional space. -/
structure Vec3 where
  x : Scalar
  y : Scalar
  z : Scalar
deriving DecidableEq, Repr

def v2add (a b : Vec2) : Vec2 := ⟨a.x + b.x, a.y + b.y⟩

def v2sub (a b : Vec2) : Vec2 := ⟨a.x - b.x, a.y - b.y⟩

def v2smul (k : Scalar) (a : Vec2) : Vec2 := ⟨k * a.x, k * a.y⟩

/-- Cross product of two plane vectors, as a scalar. -/
def cross2 (a b : Vec2) : Scalar := a.x * b.y - a.y * b.x

def v3add (a b : Vec3) : Vec3 := ⟨a.x + b.x, a.y + b.y, a.z + b.z⟩

def v3sub (a b : Vec3) : Vec3 := ⟨a.x - b.x, a.y - b.y, a.z - b.z⟩

def v3smul (k : Scalar) (a : Vec3) : Vec3 := ⟨k * a.x, k * a.y, k * a.z⟩

def dot3 (a b : Vec3) : Scalar := a.x * b.x + a.y * b.y + a.z * b.z

def cross3 (a b : Vec3) : Vec3 :=
  ⟨a.y * b.z - a.z * b.y, a.z * b.x - a.x * b.z, a.x * b.y - a.y * b.x⟩

def v3zero : Vec3 := ⟨0, 0, 0⟩

/-- Color attribute of a face (an opaque rgba value in the code). -/
abbrev Color := Nat

/-- Modelled from the spec: the object store issues stable handles; the
model keeps the next free handle id. -/
structure Objects where
  nextId : Nat
deriving DecidableEq, Repr

/-- Modelled from the spec: advance the store state past one issued id. -/
def Objects.bump (o : Objects) : Objects := ⟨o.nextId + 1⟩

/-- Typed reference into the object store. The code compares most handles
by dereferencing to the owned value; the id records the allocation
identity that the wrapper type compares instead. -/
structure Handle (T : Type) where
  id : Nat
  val : T
deriving DecidableEq, Repr

/-- Modelled from the spec: a parametric plane surface in 3-dimensional
space, given by an origin and two spanning directions. -/
structure Surface where
  origin : Vec3
  u : Vec3
  v : Vec3
deriving DecidableEq, Repr

/-- The 3-dimensional point of the surface at the given surface
coordinates. -/
def Surface.point (s : Surface) (p : Vec2) : Vec3 :=
  v3add s.origin (v3add (v3smul p.x s.u) (v3smul p.y s.v))

/-- Modelled from the spec: a 3-dimensional curve independent of any
surface; the object carries no data of its own, its identity lives in the
handle. -/
structure GlobalCurve where
deriving DecidableEq, Repr

/-- Path of a local curve in the 2-dimensional parameter space of its
surface: a line through an origin with a direction, or a circle around a
center with a radius. -/
inductive SurfacePath where
  | line (origin : Vec2) (direction : Vec2)
  | circle (center : Vec2) (radius : Scalar)
deriving DecidableEq, Repr

/-- Modelled from the spec: the unit direction at angle t on a circle.
The code evaluates floating-point cosine and sine; over the rationals the
model is exact only at angle zero, the only angle at which the embedded
operations evaluate a circle. -/
def circleDir (t : Scalar) : Vec2 := if t = 0 then ⟨1, 0⟩ else ⟨0, 1⟩

/-- The surface point of a path at the given path coordinate. -/
def SurfacePath.point (p : SurfacePath) (t : Scalar) : Vec2 :=
  match p with
  | .line o d => v2add o (v2smul t d)
  | .circle c r => v2add c (v2smul r (circleDir t))

/-- A local curve: a path on a specific surface, together with the global
curve it is the local image of. -/
structure Curve where
  surface : Handle Surface
  path : SurfacePath
  global_form : Handle GlobalCurve
deriving DecidableEq, Repr

/-- A point in 3-dimensional space with no surface association. -/
structure GlobalVertex where
  position : Vec3
deriving DecidableEq, Repr

/-- A point in the parameter space of a surface, referencing its surface
and its global vertex. -/
structure SurfaceVertex where
  position : Vec2
  surface : Handle Surface
  global_form : Handle GlobalVertex
deriving DecidableEq, Repr

/-- A point on a curve, given by a 1-dimensional curve coordinate,
referencing the curve, its surface form and its global form. -/
structure Vertex where
  position : Scalar
  curve : Handle Curve
  surface_form : SurfaceVertex
  global_form : Handle GlobalVertex
deriving DecidableEq, Repr

/-- Lexicographic comparison of 3-dimensional points, used for the
canonical vertex order of a global edge. -/
def vec3Le (a b : Vec3) : Prop :=
  a.x < b.x ∨ (a.x = b.x ∧ (a.y < b.y ∨ (a.y = b.y ∧ a.z ≤ b.z)))

instance (a b : Vec3) : Decidable (vec3Le a b) := by
  unfold vec3Le; infer_instance

/-- A global curve plus its two bounding global vertices, with the
vertices stored in a canonical order independent of edge direction. -/
structure GlobalEdge where
  curve : Handle GlobalCurve
  vertices : Handle GlobalVertex × Handle GlobalVertex
deriving DecidableEq, Repr

/-- Modelled from the spec: the constructor of a global edge normalizes
the pair of vertices into a canonical order, so that equality is
independent of the orientation that produced them. -/
def GlobalEdge.new (curve : Handle GlobalCurve)
    (vertices : Handle GlobalVertex × Handle GlobalVertex) : GlobalEdge :=
  if vec3Le vertices.1.val.position vertices.2.val.position then
    ⟨curve, vertices⟩
  else
    ⟨curve, (vertices.2, vertices.1)⟩

/-- An oriented edge bounded by two vertices on one curve, referencing the
orientation-independent global edge. -/
structure HalfEdge where
  vertices : Vertex × Vertex
  global_form : GlobalEdge
deriving DecidableEq, Repr

/-- Modelled from the spec: the constructor of a half-edge. -/
def HalfEdge.new (vertices : Vertex × Vertex) (global_form : GlobalEdge) :
    HalfEdge :=
  ⟨vertices, global_form⟩

/-- The curve of a half-edge, read from its vertices. -/
def HalfEdge.curve (h : HalfEdge) : Handle Curve := h.vertices.1.curve

/-- Modelled from the spec: a cycle of half-edges bounding a face region
on a surface. -/
structure Cycle where
  surface : Handle Surface
  halfEdges : List HalfEdge
deriving DecidableEq, Repr

/-- A face: an exterior boundary cycle, interior hole cycles and a color.
The surface of the face is the surface of its exterior cycle. -/
structure Face where
  exterior : Cycle
  interiors : List Cycle
  color : Color
deriving DecidableEq, Repr

/-- The surface a face is defined on. -/
def Face.surface (f : Face) : Handle Surface := f.exterior.surface

/-- Modelled from the spec: face construction from an exterior cycle. -/
def Face.from_exterior (exterior : Cycle) : Face := ⟨exterior, [], 0⟩

/-- Modelled from the spec: replace the interior cycles of a face. -/
def Face.with_interiors (f : Face) (interiors : List Cycle) : Face :=
  { f with interiors := interiors }

/-- Modelled from the spec: replace the color of a face. -/
def Face.with_color (f : Face) (color : Color) : Face :=
  { f with color := color }

/-- All cycles of a face: the exterior first, then the interiors. -/
def Face.allCycles (f : Face) : List Cycle := f.exterior :: f.interiors

/-- Structural equality of surface handles as the code compares them:
handles dereference to their owned value. -/
def surfaceEqv (a b : Handle Surface) : Prop := a.val = b.val

/-- Structural equality of global curve handles as the code compares them
through the identity wrapper: by allocation id. -/
def globalCurveEqv (a b : Handle GlobalCurve) : Prop := a.id = b.id

/-- Structural equality of curve handles as the code compares them: path
and surface by value, the global form by identity. -/
def curveEqv (a b : Handle Curve) : Prop :=
  a.val.path = b.val.path ∧ surfaceEqv a.val.surface b.val.surface ∧
    globalCurveEqv a.val.global_form b.val.global_form

/-- Structural equality of global vertex handles as the code compares
them: by dereferenced position. -/
def globalVertexEqv (a b : Handle GlobalVertex) : Prop := a.val = b.val

/-- Structural equality of surface vertices as the code compares them. -/
def surfaceVertexEqv (a b : SurfaceVertex) : Prop :=
  a.position = b.position ∧ surfaceEqv a.surface b.surface ∧
    globalVertexEqv a.global_form b.global_form

/-- Structural equality of vertices as the code compares them. -/
def vertexEqv (a b : Vertex) : Prop :=
  a.position = b.position ∧ curveEqv a.curve b.curve ∧
    surfaceVertexEqv a.surface_form b.surface_form ∧
    globalVertexEqv a.global_form b.global_form

/-- Structural equality of global edges as the code compares them: the
curve by identity, the vertices by value. -/
def globalEdgeEqv (a b : GlobalEdge) : Prop :=
  globalCurveEqv a.curve b.curve ∧
    globalVertexEqv a.vertices.1 b.vertices.1 ∧
    globalVertexEqv a.vertices.2 b.vertices.2

/-- Structural equality of half-edges as the code compares them. -/
def halfEdgeEqv (a b : HalfEdge) : Prop :=
  vertexEqv a.vertices.1 b.vertices.1 ∧
    vertexEqv a.vertices.2 b.vertices.2 ∧
    globalEdgeEqv a.global_form b.global_form

/-- Modelled from the spec: a tagged union over a finished object and the
builder of an in-progress one, letting code operate uniformly on both. -/
inductive MaybePartialOf (F P : Type) where
  | full (obj : F)
  | part (builder : P)
deriving DecidableEq, Repr

/-- Modelled from the spec: turn the union into a builder (converting a
finished object back into a builder with every field populated), apply an
update to it and keep it as a builder. -/
def MaybePartialOf.update (toBuilder : F → P) (f : P → P) :
    MaybePartialOf F P → MaybePartialOf F P
  | .full obj => .part (f (toBuilder obj))
  | .part builder => .part (f builder)

/-- Modelled from the spec: finalize the union into a finished object,
building if it holds a builder and returning the object unchanged
otherwise. Builder finalization can fail on absent underivable fields and
can allocate in the store. -/
def MaybePartialOf.intoFull (build : P → Objects → Option (F × Objects)) :
    MaybePartialOf F P → Objects → Option (F × Objects)
  | .full obj, o => some (obj, o)
  | .part builder, o => build builder o

/-- Modelled from the spec: the builder of a curve, every field of the
full curve made optional. -/
structure PartialCurve where
  surface : Option (Handle Surface)
  path : Option SurfacePath
  global_form : Option (Handle GlobalCurve)
deriving DecidableEq, Repr

/-- Modelled from the spec: the empty curve builder. -/
def PartialCurve.default : PartialCurve := ⟨none, none, none⟩

/-- Modelled from the spec: update the curve builder with the given
surface; a no-op when given none. -/
def PartialCurve.with_surface (c : PartialCurve)
    (surface : Option (Handle Surface)) : PartialCurve :=
  match surface with
  | some s => { c with surface := some s }
  | none => c

/-- Modelled from the spec: update the curve builder as a circle of the
given radius centered at the surface origin. -/
def PartialCurve.as_circle_from_radius (c : PartialCurve) (radius : Scalar) :
    PartialCurve :=
  { c with path := some (.circle ⟨0, 0⟩ radius) }

/-- Modelled from the spec: update the curve builder as the line through
the two given surface points, the first at curve coordinate zero and the
second at curve coordinate one. -/
def PartialCurve.as_line_from_points (c : PartialCurve) (p0 p1 : Vec2) :
    PartialCurve :=
  { c with path := some (.line p0 (v2sub p1 p0)) }

/-- Modelled from the spec: finalize a curve builder. Path and surface
must be present; an absent global form is derived by allocating a fresh
global curve. The finished curve is interned under a fresh handle. -/
def PartialCurve.build (c : PartialCurve) (o : Objects) :
    Option (Handle Curve × Objects) := do
  let path ← c.path
  let surface ← c.surface
  match c.global_form with
  | some g => some (⟨o.nextId, ⟨surface, path, g⟩⟩, o.bump)
  | none =>
    some (⟨o.nextId + 1, ⟨surface, path, ⟨o.nextId, ⟨⟩⟩⟩⟩, ⟨o.nextId + 2⟩)

/-- Modelled from the spec: the builder with every field of a finished
curve populated. -/
def PartialCurve.fromFull (c : Handle Curve) : PartialCurve :=
  ⟨some c.val.surface, some c.val.path, some c.val.global_form⟩

/-- Finalize a maybe-built curve. -/
def curveIntoFull (m : MaybePartialOf (Handle Curve) PartialCurve)
    (o : Objects) : Option (Handle Curve × Objects) :=
  m.intoFull PartialCurve.build o

/-- Modelled from the spec: read the global form from whichever side of a
maybe-built curve is present, without forcing a build. -/
def curveMPGlobalForm (m : MaybePartialOf (Handle Curve) PartialCurve) :
    Option (Handle GlobalCurve) :=
  match m with
  | .full c => some c.val.global_form
  | .part pc => pc.global_form

/-- Modelled from the spec: read the surface from whichever side of a
maybe-built curve is present. -/
def curveMPSurface (m : MaybePartialOf (Handle Curve) PartialCurve) :
    Option (Handle Surface) :=
  match m with
  | .full c => some c.val.surface
  | .part pc => pc.surface

/-- Modelled from the spec: read the path from whichever side of a
maybe-built curve is present. -/
def curveMPPath (m : MaybePartialOf (Handle Curve) PartialCurve) :
    Option SurfacePath :=
  match m with
  | .full c => some c.val.path
  | .part pc => pc.path

/-- Modelled from the spec: the builder of a global vertex. -/
structure PartialGlobalVertex where
  position : Option Vec3
deriving DecidableEq, Repr

/-- Modelled from the spec: the empty global vertex builder. -/
def PartialGlobalVertex.default : PartialGlobalVertex := ⟨none⟩

/-- Modelled from the spec: a global vertex builder placed at the given
curve coordinate of a maybe-built curve; the position is derived lazily
and stays absent while the path or surface of the curve is unknown. -/
def PartialGlobalVertex.from_curve_and_position
    (cm : MaybePartialOf (Handle Curve) PartialCurve) (t : Scalar) :
    PartialGlobalVertex :=
  ⟨do
    let p ← curveMPPath cm
    let s ← curveMPSurface cm
    pure (Surface.point s.val (p.point t))⟩

/-- Modelled from the spec: finalize a global vertex builder; the
position must be present. -/
def PartialGlobalVertex.build (v : PartialGlobalVertex) (o : Objects) :
    Option (Handle GlobalVertex × Objects) := do
  let pos ← v.position
  some (⟨o.nextId, ⟨pos⟩⟩, o.bump)

/-- Finalize a maybe-built global vertex. -/
def globalVertexIntoFull
    (m : MaybePartialOf (Handle GlobalVertex) PartialGlobalVertex)
    (o : Objects) : Option (Handle GlobalVertex × Objects) :=
  m.intoFull PartialGlobalVertex.build o

/-- Modelled from the spec: the builder of a surface vertex. -/
structure PartialSurfaceVertex where
  position : Option Vec2
  surface : Option (Handle Surface)
  global_form : Option (MaybePartialOf (Handle GlobalVertex) PartialGlobalVertex)
deriving DecidableEq, Repr

/-- Modelled from the spec: the empty surface vertex builder. -/
def PartialSurfaceVertex.default : PartialSurfaceVertex := ⟨none, none, none⟩

/-- Modelled from the spec: update the surface vertex builder with the
given surface; a no-op when given none. -/
def PartialSurfaceVertex.with_surface (v : PartialSurfaceVertex)
    (surface : Option (Handle Surface)) : PartialSurfaceVertex :=
  match surface with
  | some s => { v with surface := some s }
  | none => v

/-- Modelled from the spec: update the surface vertex builder with the
given position; a no-op when given none. -/
def PartialSurfaceVertex.with_position (v : PartialSurfaceVertex)
    (position : Option Vec2) : PartialSurfaceVertex :=
  match position with
  | some p => { v with position := some p }
  | none => v

/-- Modelled from the spec: finalize a surface vertex builder; position
and surface must be present, an absent global form is derived by
evaluating the surface at the position. -/
def PartialSurfaceVertex.build (v : PartialSurfaceVertex) (o : Objects) :
    Option (SurfaceVertex × Objects) := do
  let pos ← v.position
  let s ← v.surface
  match v.global_form with
  | some g => do
    let (gv, o2) ← globalVertexIntoFull g o
    some (⟨pos, s, gv⟩, o2)
  | none => some (⟨pos, s, ⟨o.nextId, ⟨Surface.point s.val pos⟩⟩⟩, o.bump)

/-- Modelled from the spec: the builder with every field of a finished
surface vertex populated. -/
def PartialSurfaceVertex.fromFull (sv : SurfaceVertex) :
    PartialSurfaceVertex :=
  ⟨some sv.position, some sv.surface, some (.full sv.global_form)⟩

/-- Finalize a maybe-built surface vertex. -/
def surfaceVertexIntoFull
    (m : MaybePartialOf SurfaceVertex PartialSurfaceVertex) (o : Objects) :
    Option (SurfaceVertex × Objects) :=
  m.intoFull PartialSurfaceVertex.build o

/-- Modelled from the spec: read the surface from whichever side of a
maybe-built surface vertex is present. -/
def svMPSurface (m : MaybePartialOf SurfaceVertex PartialSurfaceVertex) :
    Option (Handle Surface) :=
  match m with
  | .full sv => some sv.surface
  | .part psv => psv.surface

/-- Modelled from the spec: read the position from whichever side of a
maybe-built surface vertex is present. -/
def svMPPosition (m : MaybePartialOf SurfaceVertex PartialSurfaceVertex) :
    Option Vec2 :=
  match m with
  | .full sv => some sv.position
  | .part psv => psv.position

/-- Modelled from the spec: the builder of a vertex. -/
structure PartialVertex where
  position : Option Scalar
  curve : Option (MaybePartialOf (Handle Curve) PartialCurve)
  surface_form : Option (MaybePartialOf SurfaceVertex PartialSurfaceVertex)
  global_form : Option (MaybePartialOf (Handle GlobalVertex) PartialGlobalVertex)
deriving DecidableEq, Repr

/-- Modelled from the spec: the empty vertex builder. -/
def PartialVertex.default : PartialVertex := ⟨none, none, none, none⟩

/-- Modelled from the spec: update the vertex builder with the given
curve coordinate; a no-op when given none. -/
def PartialVertex.with_position (v : PartialVertex)
    (position : Option Scalar) : PartialVertex :=
  match position with
  | some p => { v with position := some p }
  | none => v

/-- Modelled from the spec: update the vertex builder with the given
curve; a no-op when given none. -/
def PartialVertex.with_curve (v : PartialVertex)
    (curve : Option (MaybePartialOf (Handle Curve) PartialCurve)) :
    PartialVertex :=
  match curve with
  | some c => { v with curve := some c }
  | none => v

/-- Modelled from the spec: update the vertex builder with the given
surface form; a no-op when given none. -/
def PartialVertex.with_surface_form (v : PartialVertex)
    (surface_form : Option (MaybePartialOf SurfaceVertex PartialSurfaceVertex)) :
    PartialVertex :=
  match surface_form with
  | some sf => { v with surface_form := some sf }
  | none => v

/-- Modelled from the spec: update the vertex builder with the given
global form; a no-op when given none. -/
def PartialVertex.with_global_form (v : PartialVertex)
    (global_form :
      Option (MaybePartialOf (Handle GlobalVertex) PartialGlobalVertex)) :
    PartialVertex :=
  match global_form with
  | some gf => { v with global_form := some gf }
  | none => v

/-- Modelled from the spec: finalize a vertex builder. Curve coordinate
and curve must be present; an absent surface form is derived by evaluating
the curve path at the coordinate; the global form is taken from the
explicit field when present and from the surface form otherwise. -/
def PartialVertex.build (v : PartialVertex) (o : Objects) :
    Option (Vertex × Objects) := do
  let pos ← v.position
  let cm ← v.curve
  let (c, o1) ← curveIntoFull cm o
  let svm := v.surface_form.getD
    (.part ⟨some (c.val.path.point pos), some c.val.surface, v.global_form⟩)
  let (sv, o2) ← surfaceVertexIntoFull svm o1
  match v.global_form with
  | some g => do
    let (gv, o3) ← globalVertexIntoFull g o2
    some (⟨pos, c, sv, gv⟩, o3)
  | none => some (⟨pos, c, sv, sv.global_form⟩, o2)

/-- Modelled from the spec: the builder with every field of a finished
vertex populated. -/
def PartialVertex.fromFull (v : Vertex) : PartialVertex :=
  ⟨some v.position, some (.full v.curve), some (.full v.surface_form),
    some (.full v.global_form)⟩

/-- Finalize a maybe-built vertex. -/
def vertexIntoFull (m : MaybePartialOf Vertex PartialVertex) (o : Objects) :
    Option (Vertex × Objects) :=
  m.intoFull PartialVertex.build o

/-- Modelled from the spec: read the surface form from whichever side of
a maybe-built vertex is present. -/
def vertexMPSurfaceForm (m : MaybePartialOf Vertex PartialVertex) :
    Option (MaybePartialOf SurfaceVertex PartialSurfaceVertex) :=
  match m with
  | .full v => some (.full v.surface_form)
  | .part pv => pv.surface_form

/-- First option when present, the second one otherwise. -/
def optOr {α : Type} (a b : Option α) : Option α :=
  match a with
  | some x => some x
  | none => b

/-- A builder for a global edge: curve and vertices made optional. -/
structure PartialGlobalEdge where
  curve : Option (Handle GlobalCurve)
  vertices : Option (Handle GlobalVertex × Handle GlobalVertex)
deriving DecidableEq, Repr

/-- The empty global edge builder. -/
def PartialGlobalEdge.default : PartialGlobalEdge := ⟨none, none⟩

/-- Update the global edge builder with the given curve; a no-op when
given none. -/
def PartialGlobalEdge.with_curve (e : PartialGlobalEdge)
    (curve : Option (Handle GlobalCurve)) : PartialGlobalEdge :=
  match curve with
  | some c => { e with curve := some c }
  | none => e

/-- Update the global edge builder with the given vertices; a no-op when
given none. -/
def PartialGlobalEdge.with_vertices (e : PartialGlobalEdge)
    (vertices : Option (Handle GlobalVertex × Handle GlobalVertex)) :
    PartialGlobalEdge :=
  match vertices with
  | some vs => { e with vertices := some vs }
  | none => e

/-- Update the global edge builder from the given curve and vertices: the
curve contributes its global form, each vertex its global form. -/
def PartialGlobalEdge.from_curve_and_vertices (e : PartialGlobalEdge)
    (curve : Curve) (vertices : Vertex × Vertex) : PartialGlobalEdge :=
  (e.with_curve (some curve.global_form)).with_vertices
    (some (vertices.1.global_form, vertices.2.global_form))

/-- Finalize a global edge builder: curve and vertices must already be
present, no inference is performed. -/
def PartialGlobalEdge.build (e : PartialGlobalEdge) (o : Objects) :
    Option (GlobalEdge × Objects) := do
  let curve ← e.curve
  let vertices ← e.vertices
  some (GlobalEdge.new curve vertices, o)

/-- The builder with every field of a finished global edge populated, the
vertices taken in normalized order. -/
def PartialGlobalEdge.fromFull (ge : GlobalEdge) : PartialGlobalEdge :=
  ⟨some ge.curve, some ge.vertices⟩

/-- Modelled from the spec: read the curve from whichever side of a
maybe-built global edge is present. -/
def globalEdgeMPCurve (m : MaybePartialOf GlobalEdge PartialGlobalEdge) :
    Option (Handle GlobalCurve) :=
  match m with
  | .full ge => some ge.curve
  | .part pge => pge.curve

/-- Finalize a maybe-built global edge. -/
def globalEdgeIntoFull (m : MaybePartialOf GlobalEdge PartialGlobalEdge)
    (o : Objects) : Option (GlobalEdge × Objects) :=
  m.intoFull PartialGlobalEdge.build o

/-- A builder for a half-edge: surface, curve, vertices and global form,
all optional. -/
structure PartialHalfEdge where
  surface : Option (Handle Surface)
  curve : Option (MaybePartialOf (Handle Curve) PartialCurve)
  vertices : Option (MaybePartialOf Vertex PartialVertex ×
    MaybePartialOf Vertex PartialVertex)
  global_form : Option (MaybePartialOf GlobalEdge PartialGlobalEdge)
deriving DecidableEq, Repr

/-- The empty half-edge builder. -/
def PartialHalfEdge.default : PartialHalfEdge := ⟨none, none, none, none⟩

/-- Update the half-edge builder with the given surface; a no-op when
given none. -/
def PartialHalfEdge.with_surface (e : PartialHalfEdge)
    (surface : Option (Handle Surface)) : PartialHalfEdge :=
  match surface with
  | some s => { e with surface := some s }
  | none => e

/-- Update the half-edge builder with the given curve; a no-op when given
none. -/
def PartialHalfEdge.with_curve (e : PartialHalfEdge)
    (curve : Option (MaybePartialOf (Handle Curve) PartialCurve)) :
    PartialHalfEdge :=
  match curve with
  | some c => { e with curve := some c }
  | none => e

/-- Update the half-edge builder with the given vertices; a no-op when
given none. -/
def PartialHalfEdge.with_vertices (e : PartialHalfEdge)
    (vertices : Option (MaybePartialOf Vertex PartialVertex ×
      MaybePartialOf Vertex PartialVertex)) : PartialHalfEdge :=
  match vertices with
  | some vs => { e with vertices := some vs }
  | none => e

/-- Update the half-edge builder with the given global form; a no-op when
given none. -/
def PartialHalfEdge.with_global_form (e : PartialHalfEdge)
    (global_form : Option (MaybePartialOf GlobalEdge PartialGlobalEdge)) :
    PartialHalfEdge :=
  match global_form with
  | some gf => { e with global_form := some gf }
  | none => e

/-- Update the half-edge builder as a circle of the given radius: the
curve becomes a circle around the surface origin, the two bounding
vertices sit at curve coordinates zero and TAU and share one global
vertex. -/
def PartialHalfEdge.as_circle_from_radius (e : PartialHalfEdge)
    (radius : Scalar) : PartialHalfEdge :=
  let curve := (PartialCurve.default.with_surface
    e.surface).as_circle_from_radius radius
  let a_curve : Scalar := 0
  let b_curve : Scalar := Scalar.TAU
  let global_vertex :=
    PartialGlobalVertex.from_curve_and_position (.part curve) a_curve
  let mkVertex := fun (point_curve : Scalar) =>
    ((PartialVertex.default.with_position
        (some point_curve)).with_curve
      (some (.part curve))).with_global_form (some (.part global_vertex))
  { e with
    curve := some (.part curve),
    vertices := some (.part (mkVertex a_curve), .part (mkVertex b_curve)) }

/-- Resolve the shared global curve of a half-edge builder: first from
the global form of the curve field, then from the curve of the global
form field. -/
def extractGlobalCurve (e : PartialHalfEdge) : Option (Handle GlobalCurve) :=
  optOr (e.curve.bind curveMPGlobalForm) (e.global_form.bind globalEdgeMPCurve)

/-- Update the half-edge builder as a line segment, reusing existing
vertices: requires two vertices with surface forms, a surface from the
builder or the vertices, and two surface positions; constructs the line
through the two positions, carries the extracted global curve forward and
re-derives the vertex coordinates as zero and one against the new
curve. -/
def PartialHalfEdge.as_line_segment (e : PartialHalfEdge) :
    Option PartialHalfEdge := do
  let (vfrom, vto) ← e.vertices
  let from_surface ← vertexMPSurfaceForm vfrom
  let to_surface ← vertexMPSurfaceForm vto
  let surface ← optOr e.surface
    (optOr (svMPSurface from_surface) (svMPSurface to_surface))
  let pfrom ← svMPPosition from_surface
  let pto ← svMPPosition to_surface
  let curve := (({ PartialCurve.default with
      global_form := extractGlobalCurve e }).with_surface
    (some surface)).as_line_from_points pfrom pto
  let vertices :=
    (vfrom.update PartialVertex.fromFull (fun v =>
        (v.with_position (some 0)).with_curve (some (.part curve))),
      vto.update PartialVertex.fromFull (fun v =>
        (v.with_position (some 1)).with_curve (some (.part curve))))
  some { e with
    curve := some (.part curve),
    vertices := some vertices }

/-- Update the half-edge builder as a line segment from the given surface
points: places two surface vertices at those points, then derives the
line segment. -/
def PartialHalfEdge.as_line_segment_from_points (e : PartialHalfEdge)
    (p0 p1 : Vec2) : Option PartialHalfEdge :=
  let surface := e.surface
  let mkVertex := fun (point : Vec2) =>
    PartialVertex.default.with_surface_form (some (.part
      ((PartialSurfaceVertex.default.with_surface
        surface).with_position (some point))))
  (e.with_vertices
    (some (.part (mkVertex p0), .part (mkVertex p1)))).as_line_segment

/-- Finalize a half-edge builder: curve and vertices must be present; the
surface of the builder is propagated into the curve, the finalized curve
is propagated into each vertex before finalizing it, and an absent global
form is derived canonically from the finalized curve and vertices. -/
def PartialHalfEdge.build (e : PartialHalfEdge) (o : Objects) :
    Option (HalfEdge × Objects) := do
  let surface := e.surface
  let cm ← e.curve
  let (curve, o1) ← curveIntoFull
    (cm.update PartialCurve.fromFull (fun c => c.with_surface surface)) o
  let (vm1, vm2) ← e.vertices
  let (v1, o2) ← vertexIntoFull
    (vm1.update PartialVertex.fromFull (fun v =>
      v.with_curve (some (.full curve)))) o1
  let (v2, o3) ← vertexIntoFull
    (vm2.update PartialVertex.fromFull (fun v =>
      v.with_curve (some (.full curve)))) o2
  let gm := e.global_form.getD
    (.part (PartialGlobalEdge.default.from_curve_and_vertices curve.val
      (v1, v2)))
  let (global_form, o4) ← globalEdgeIntoFull gm o3
  some (HalfEdge.new (v1, v2) global_form, o4)

/-- The builder with every field of a finished half-edge populated. -/
def PartialHalfEdge.fromFull (h : HalfEdge) : PartialHalfEdge :=
  ⟨some h.curve.val.surface, some (.full h.curve),
    some (.full h.vertices.1, .full h.vertices.2), some (.full h.global_form)⟩

/-- Lexicographic positivity of a 3-dimensional vector: its first nonzero
component is positive. -/
def lexPos (d : Vec3) : Prop :=
  0 < d.x ∨ (d.x = 0 ∧ (0 < d.y ∨ (d.y = 0 ∧ 0 < d.z)))

instance (d : Vec3) : Decidable (lexPos d) := by
  unfold lexPos; infer_instance

/-- Canonical orientation of a direction: the direction itself when its
first nonzero component is positive, its negation otherwise. -/
def canonDir (d : Vec3) : Vec3 := if lexPos d then d else v3smul (-1) d

/-- Coordinates of a 3-dimensional vector in the spanning directions of a
plane, obtained by solving the Gram system of the two directions. -/
def planeVecCoords (s : Surface) (w : Vec3) : Vec2 :=
  let uu := dot3 s.u s.u
  let vv := dot3 s.v s.v
  let uv := dot3 s.u s.v
  let det := uu * vv - uv * uv
  ⟨(dot3 w s.u * vv - dot3 w s.v * uv) / det,
    (dot3 w s.v * uu - dot3 w s.u * uv) / det⟩

/-- Surface coordinates of a 3-dimensional point lying on a plane. -/
def planeCoords (s : Surface) (p : Vec3) : Vec2 :=
  planeVecCoords s (v3sub p s.origin)

/-- An intersection of two surfaces: one local curve per input surface,
both the local image of the same global curve. -/
structure SurfaceSurfaceIntersection where
  intersection_curves : Handle Curve × Handle Curve
deriving DecidableEq, Repr

/-- Modelled from the spec: intersect two plane surfaces. Parallel,
coincident or degenerate surfaces yield no intersection; otherwise the
result is the common intersection line, expressed as a local line curve
on each surface, both carrying one freshly allocated global curve and
parametrized by the same canonically oriented direction. -/
def SurfaceSurfaceIntersection.compute (s1 s2 : Handle Surface)
    (o : Objects) : Option SurfaceSurfaceIntersection :=
  let n1 := cross3 s1.val.u s1.val.v
  let n2 := cross3 s2.val.u s2.val.v
  let d12 := cross3 n1 n2
  if d12 = v3zero then none
  else
    let c1 := dot3 n1 s1.val.origin
    let c2 := dot3 n2 s2.val.origin
    let p := v3smul (1 / dot3 d12 d12)
      (v3add (v3smul c1 (cross3 n2 d12)) (v3smul c2 (cross3 d12 n1)))
    let d := canonDir d12
    let g : Handle GlobalCurve := ⟨o.nextId, ⟨⟩⟩
    some ⟨(⟨o.nextId + 1,
        ⟨s1, .line (planeCoords s1.val p) (planeVecCoords s1.val d), g⟩⟩,
      ⟨o.nextId + 2,
        ⟨s2, .line (planeCoords s2.val p) (planeVecCoords s2.val d), g⟩⟩)⟩

/-- A set of intervals in curve coordinates, as start and end pairs. -/
structure CurveFaceIntersection where
  intervals : List (Scalar × Scalar)
deriving DecidableEq, Repr

/-- Whether the interval set is empty. -/
def CurveFaceIntersection.is_empty (c : CurveFaceIntersection) : Bool :=
  c.intervals.isEmpty

/-- Overlap of two closed intervals; zero-length touching overlaps are
kept. -/
def intervalIntersect (a b : Scalar × Scalar) : Option (Scalar × Scalar) :=
  let lo := max a.1 b.1
  let hi := min a.2 b.2
  if lo ≤ hi then some (lo, hi) else none

/-- Modelled from the spec: merge two interval sets by set
intersection. -/
def CurveFaceIntersection.merge (a b : CurveFaceIntersection) :
    CurveFaceIntersection :=
  ⟨a.intervals.flatMap (fun i =>
    b.intervals.filterMap (fun j => intervalIntersect i j))⟩

/-- Modelled from the spec: curve coordinate at which a line crosses a
segment, when the crossing lies within the segment. -/
def segIntersect (origin dir : Vec2) (seg : Vec2 × Vec2) : Option Scalar :=
  let e := v2sub seg.2 seg.1
  let den := cross2 dir e
  if den = 0 then none
  else
    let w := v2sub seg.1 origin
    let t := cross2 w e / den
    let s := (w.x * dir.y - dir.x * w.y) / den
    if 0 ≤ s ∧ s ≤ 1 then some t else none

/-- The boundary segments of a cycle, each half-edge contributing the
segment between the surface positions of its two vertices. -/
def cycleSegments (c : Cycle) : List (Vec2 × Vec2) :=
  c.halfEdges.map (fun he =>
    (he.vertices.1.surface_form.position, he.vertices.2.surface_form.position))

/-- Insert a scalar into a sorted list, keeping it sorted. -/
def insertSorted (x : Scalar) : List Scalar → List Scalar
  | [] => [x]
  | y :: ys => if x ≤ y then x :: y :: ys else y :: insertSorted x ys

/-- Sort a list of scalars ascending by insertion. -/
def sortScalars (l : List Scalar) : List Scalar :=
  l.foldr insertSorted []

/-- Chunk a sorted list of boundary crossings into entry and exit
pairs. -/
def pairUp : List Scalar → List (Scalar × Scalar)
  | a :: b :: rest => (a, b) :: pairUp rest
  | _ => []

/-- Modelled from the spec: restrict a line curve to the portion bounded
by the region of a face: collect the curve coordinates at which the line
crosses a boundary segment of any cycle of the face, sort them, and pair
them into inside intervals. The intersection curves produced by the
surface-surface intersection are always lines; for a circle path the
model yields the empty set. -/
def CurveFaceIntersection.compute (curve : Handle Curve) (face : Face) :
    CurveFaceIntersection :=
  match curve.val.path with
  | .line origin dir =>
    let segs := face.allCycles.flatMap cycleSegments
    ⟨pairUp (sortScalars (segs.filterMap (segIntersect origin dir)))⟩
  | .circle _ _ => ⟨[]⟩

/-- An intersection between two faces: one local curve per face, both
denoting the same global curve, and the shared intersection intervals. -/
structure FaceFaceIntersection where
  intersection_curves : Handle Curve × Handle Curve
  intersection_intervals : CurveFaceIntersection
deriving DecidableEq, Repr

/-- Compute the intersection of two faces: intersect the two surfaces,
restrict each resulting local curve to its own originating face, merge
the two interval sets, and return nothing when the surfaces do not
intersect or the merged interval set is empty. -/
def FaceFaceIntersection.compute (faces : Face × Face) (o : Objects) :
    Option FaceFaceIntersection := do
  let ssi ← SurfaceSurfaceIntersection.compute faces.1.surface
    faces.2.surface o
  let (curve_a, curve_b) := ssi.intersection_curves
  let cfi_a := CurveFaceIntersection.compute curve_a faces.1
  let cfi_b := CurveFaceIntersection.compute curve_b faces.2
  let intersection_intervals := cfi_a.merge cfi_b
  if intersection_intervals.is_empty then none
  else some ⟨(curve_a, curve_b), intersection_intervals⟩

/-- An affine transform: three linear rows and a translation. -/
structure Transform where
  r1 : Vec3
  r2 : Vec3
  r3 : Vec3
  t : Vec3
deriving DecidableEq, Repr

/-- Apply the linear part of a transform to a vector. -/
def Transform.applyVec (tr : Transform) (v : Vec3) : Vec3 :=
  ⟨dot3 tr.r1 v, dot3 tr.r2 v, dot3 tr.r3 v⟩

/-- Apply a transform to a point. -/
def Transform.applyPoint (tr : Transform) (p : Vec3) : Vec3 :=
  v3add (tr.applyVec p) tr.t

/-- Modelled from the spec: transform the geometry of a plane surface. -/
def Surface.transformGeom (s : Surface) (tr : Transform) : Surface :=
  ⟨tr.applyPoint s.origin, tr.applyVec s.u, tr.applyVec s.v⟩

/-- Modelled from the spec: transform a surface handle, interning the
transformed surface under a fresh handle. -/
def transformSurfaceHandle (h : Handle Surface) (tr : Transform)
    (o : Objects) : Handle Surface × Objects :=
  (⟨o.nextId, h.val.transformGeom tr⟩, o.bump)

/-- Modelled from the spec: transform a curve handle: transform its
surface, keep the local path and the global curve identity, and intern
the result under a fresh handle. -/
def transformCurveHandle (c : Handle Curve) (tr : Transform) (o : Objects) :
    Handle Curve × Objects :=
  let (s, o1) := transformSurfaceHandle c.val.surface tr o
  (⟨o1.nextId, ⟨s, c.val.path, c.val.global_form⟩⟩, o1.bump)

/-- Modelled from the spec: transform a vertex against an already
transformed curve, re-pointing it to that curve and transforming its
global position. -/
def transformVertexWith (curve : Handle Curve) (tr : Transform) (v : Vertex)
    (o : Objects) : Vertex × Objects :=
  let gv : Handle GlobalVertex :=
    ⟨o.nextId, ⟨tr.applyPoint v.global_form.val.position⟩⟩
  (⟨v.position, curve, ⟨v.surface_form.position, curve.val.surface, gv⟩, gv⟩,
    o.bump)

/-- Modelled from the spec: transform a half-edge: transform its curve
once, transform both vertices against that one transformed curve, and
rebuild the global form from the transformed vertices while keeping the
global curve identity. -/
def transformHalfEdgeGeom (tr : Transform) (he : HalfEdge) (o : Objects) :
    HalfEdge × Objects :=
  let (c, o1) := transformCurveHandle he.curve tr o
  let (va, o2) := transformVertexWith c tr he.vertices.1 o1
  let (vb, o3) := transformVertexWith c tr he.vertices.2 o2
  (HalfEdge.new (va, vb)
    (GlobalEdge.new he.global_form.curve (va.global_form, vb.global_form)), o3)

/-- Transform each half-edge of a list in order, threading the store. -/
def transformEdgeList (tr : Transform) :
    List HalfEdge → Objects → List HalfEdge × Objects
  | [], o => ([], o)
  | e :: es, o =>
    let (e2, o1) := transformHalfEdgeGeom tr e o
    let (rest, o2) := transformEdgeList tr es o1
    (e2 :: rest, o2)

/-- Modelled from the spec: the builder of a cycle: an optional surface
and the half-edges. -/
structure PartialCycle where
  surface : Option (Handle Surface)
  halfEdges : List HalfEdge
deriving DecidableEq, Repr

/-- Modelled from the spec: the builder with every field of a finished
cycle populated. -/
def Cycle.toBuilder (c : Cycle) : PartialCycle :=
  ⟨some c.surface, c.halfEdges⟩

/-- Modelled from the spec: update the cycle builder with the given
surface; a no-op when given none. -/
def PartialCycle.with_surface (c : PartialCycle)
    (surface : Option (Handle Surface)) : PartialCycle :=
  match surface with
  | some s => { c with surface := some s }
  | none => c

/-- Modelled from the spec: finalize a cycle builder; the surface must be
present. -/
def PartialCycle.build (c : PartialCycle) : Option Cycle := do
  let s ← c.surface
  some ⟨s, c.halfEdges⟩

/-- Modelled from the spec: transform a cycle builder: transform its own
surface when present and each of its half-edges. -/
def PartialCycle.transform (c : PartialCycle) (tr : Transform)
    (o : Objects) : PartialCycle × Objects :=
  let (s, o1) :=
    match c.surface with
    | some s0 =>
      let (s1, o1) := transformSurfaceHandle s0 tr o
      (some s1, o1)
    | none => (none, o)
  let (hes, o2) := transformEdgeList tr c.halfEdges o1
  (⟨s, hes⟩, o2)

/-- Transform a list of interior cycles against one shared transformed
surface, threading the store. -/
def transformCyclesWith (tr : Transform) (surface : Handle Surface) :
    List Cycle → Objects → Option (List Cycle × Objects)
  | [], o => some ([], o)
  | c :: cs, o => do
    let (pc, o1) := (c.toBuilder).transform tr o
    let built ← (pc.with_surface (some surface)).build
    let (rest, o2) ← transformCyclesWith tr surface cs o1
    some (built :: rest, o2)

/-- Transform a face: transform its surface once, transform the exterior
and every interior cycle against that single transformed surface, and
keep the color. -/
def Face.transform (f : Face) (tr : Transform) (o : Objects) :
    Option (Face × Objects) := do
  let (surface, o1) := transformSurfaceHandle f.surface tr o
  let (pext, o2) := (f.exterior.toBuilder).transform tr o1
  let exterior ← (pext.with_surface (some surface)).build
  let (interiors, o3) ← transformCyclesWith tr surface f.interiors o2
  some (((Face.from_exterior exterior).with_interiors interiors).with_color
    f.color, o3)

instance (a b : Handle Surface) : Decidable (surfaceEqv a b) := by
  unfold surfaceEqv; infer_instance

instance (a b : Handle GlobalCurve) : Decidable (globalCurveEqv a b) := by
  unfold globalCurveEqv; infer_instance

instance (a b : Handle Curve) : Decidable (curveEqv a b) := by
  unfold curveEqv; infer_instance

instance (a b : Handle GlobalVertex) : Decidable (globalVertexEqv a b) := by
  unfold globalVertexEqv; infer_instance

instance (a b : SurfaceVertex) : Decidable (surfaceVertexEqv a b) := by
  unfold surfaceVertexEqv; infer_instance

instance (a b : Vertex) : Decidable (vertexEqv a b) := by
  unfold vertexEqv; infer_instance

instance (a b : GlobalEdge) : Decidable (globalEdgeEqv a b) := by
  unfold globalEdgeEqv; infer_instance

instance (a b : HalfEdge) : Decidable (halfEdgeEqv a b) := by
  unfold halfEdgeEqv; infer_instance

/-
Sample objects used by the witnesses and counterexamples.
-/

/-- Sample plane: the xy plane. -/
def sampleSurfaceXY : Handle Surface := ⟨0, ⟨v3zero, ⟨1, 0, 0⟩, ⟨0, 1, 0⟩⟩⟩

/-- Sample plane: the xz plane. -/
def sampleSurfaceXZ : Handle Surface := ⟨1, ⟨v3zero, ⟨1, 0, 0⟩, ⟨0, 0, 1⟩⟩⟩

/-- Sample global curve handle. -/
def sampleGlobalCurve : Handle GlobalCurve := ⟨50, ⟨⟩⟩

/-- Sample curve through two surface points of a plane. -/
def sampleCurveOn (s : Handle Surface) (a b : Vec2) : Handle Curve :=
  ⟨60, ⟨s, .line a (v2sub b a), sampleGlobalCurve⟩⟩

/-- Sample vertex at a curve coordinate and surface position. -/
def sampleVertexOn (s : Handle Surface) (c : Handle Curve) (t : Scalar)
    (p : Vec2) : Vertex :=
  ⟨t, c, ⟨p, s, ⟨70, ⟨Surface.point s.val p⟩⟩⟩, ⟨70, ⟨Surface.point s.val p⟩⟩⟩

/-- Sample half-edge between two surface points of a plane. -/
def sampleEdge (s : Handle Surface) (a b : Vec2) : HalfEdge :=
  HalfEdge.new
    (sampleVertexOn s (sampleCurveOn s a b) 0 a,
      sampleVertexOn s (sampleCurveOn s a b) 1 b)
    (GlobalEdge.new sampleGlobalCurve
      ((sampleVertexOn s (sampleCurveOn s a b) 0 a).global_form,
        (sampleVertexOn s (sampleCurveOn s a b) 1 b).global_form))

/-- Sample polygonal face on a plane, one half-edge per polygon side. -/
def sampleSquare (s : Handle Surface) (pts : List Vec2) : Face :=
  ⟨⟨s, (pts.zip (pts.rotateLeft 1)).map (fun ab => sampleEdge s ab.1 ab.2)⟩,
    [], 0⟩

/-- Sample face: the unit square centered at the origin of the xy
plane. -/
def sampleFaceXY : Face :=
  sampleSquare sampleSurfaceXY [⟨-1, -1⟩, ⟨1, -1⟩, ⟨1, 1⟩, ⟨-1, 1⟩]

/-- Sample face: the unit square centered at the origin of the xz
plane. -/
def sampleFaceXZ : Face :=
  sampleSquare sampleSurfaceXZ [⟨-1, -1⟩, ⟨1, -1⟩, ⟨1, 1⟩, ⟨-1, 1⟩]

/-- Sample store state. -/
def sampleStore : Objects := ⟨100⟩

/-- Sample half-edge on the xy plane from the origin to the unit point of
the first axis. -/
def sampleHalfEdge : HalfEdge := sampleEdge sampleSurfaceXY ⟨0, 0⟩ ⟨1, 0⟩

/-- Sample rigid transform: a quarter turn around the third axis plus a
translation. -/
def sampleTransform : Transform :=
  ⟨⟨0, -1, 0⟩, ⟨1, 0, 0⟩, ⟨0, 0, 1⟩, ⟨3, 4, 5⟩⟩

/-
Theorems for the claims.
-/

/-- C6: every with-setter of the partial half-edge and the partial global
edge is a no-op when called with none, and called with some value sets
exactly that field, leaving every other field unchanged. -/
theorem C6_with_setters_frame (p : PartialHalfEdge) (q : PartialGlobalEdge)
    (s : Handle Surface) (c : MaybePartialOf (Handle Curve) PartialCurve)
    (vs : MaybePartialOf Vertex PartialVertex ×
      MaybePartialOf Vertex PartialVertex)
    (g : MaybePartialOf GlobalEdge PartialGlobalEdge)
    (gc : Handle GlobalCurve)
    (gvs : Handle GlobalVertex × Handle GlobalVertex) :
    p.with_surface none = p ∧ p.with_curve none = p ∧
    p.with_vertices none = p ∧ p.with_global_form none = p ∧
    q.with_curve none = q ∧ q.with_vertices none = q ∧
    p.with_surface (some s) = { p with surface := some s } ∧
    p.with_curve (some c) = { p with curve := some c } ∧
    p.with_vertices (some vs) = { p with vertices := some vs } ∧
    p.with_global_form (some g) = { p with global_form := some g } ∧
    q.with_curve (some gc) = { q with curve := some gc } ∧
    q.with_vertices (some gvs) = { q with vertices := some gvs } :=
  ⟨rfl, rfl, rfl, rfl, rfl, rfl, rfl, rfl, rfl, rfl, rfl, rfl⟩

/-- C5: for every radius, the circle builder produces a partial half-edge
whose curve is a circle of that radius centered at the surface origin and
whose two bounding vertices sit at curve coordinates zero and TAU, the
floating-point value of the number 2 times pi, and share one identical
global vertex. -/
theorem C5_circle_from_radius (e : PartialHalfEdge) (r : Scalar) :
    ∃ c gv va vb,
      (e.as_circle_from_radius r).curve = some (.part c) ∧
      c.path = some (.circle ⟨0, 0⟩ r) ∧
      (e.as_circle_from_radius r).vertices = some (.part va, .part vb) ∧
      va.position = some 0 ∧ vb.position = some Scalar.TAU ∧
      va.global_form = some (.part gv) ∧ vb.global_form = some (.part gv) := by
  refine ⟨_, _, _, _, rfl, ?_, rfl, rfl, rfl, rfl, rfl⟩
  simp [PartialCurve.as_circle_from_radius]

/-- Every cycle produced by transforming a list of cycles against one
shared surface references that surface. -/
theorem transformCyclesWith_surface (tr : Transform) (s : Handle Surface) :
    ∀ (cs : List Cycle) (o : Objects) (out : List Cycle) (o2 : Objects),
      transformCyclesWith tr s cs o = some (out, o2) →
      ∀ c ∈ out, c.surface = s := by
  intro cs
  induction cs with
  | nil =>
    intro o out o2 h c hc
    simp [transformCyclesWith] at h
    simp [h.1] at hc
  | cons c0 cs ih =>
    intro o out o2 h c hc
    simp only [transformCyclesWith, Option.bind_eq_bind, Option.bind_eq_some,
      PartialCycle.build, PartialCycle.with_surface, Option.some.injEq] at h
    obtain ⟨built, hbuilt, ⟨rest, o3⟩, hrest, hout⟩ := h
    cases hout
    rcases List.mem_cons.mp hc with hc | hc
    · obtain ⟨s2, hs2, hb⟩ := hbuilt
      cases hb
      cases hs2
      simp [hc]
    · exact ih _ _ _ hrest c hc

/-- C7: transforming a face rebuilds exactly one transformed surface, and
the exterior cycle and all interior cycles of the transformed face
reference that single transformed surface handle. -/
theorem C7_face_transform_shares_surface (f : Face) (tr : Transform)
    (o : Objects) (f2 : Face) (o2 : Objects)
    (h : f.transform tr o = some (f2, o2)) :
    f2.exterior.surface = (transformSurfaceHandle f.surface tr o).1 ∧
    ∀ c ∈ f2.interiors,
      c.surface = (transformSurfaceHandle f.surface tr o).1 := by
  unfold Face.transform at h
  simp only [Option.bind_eq_bind, Option.bind_eq_some, PartialCycle.build,
    PartialCycle.with_surface, Option.some.injEq] at h
  obtain ⟨ext, hext, ⟨ints, o3⟩, hints, hf2⟩ := h
  obtain ⟨s2, hs2, hb⟩ := hext
  cases hb
  cases hs2
  cases hf2
  constructor
  · rfl
  · intro c hc
    exact transformCyclesWith_surface tr _ _ _ _ _ hints c hc

/-- C7 witness: at a concrete face, transform and store, the transformed
face exists and its cycles reference the one transformed surface. -/
theorem C7_witness :
    ∃ f2 o2, Face.transform sampleFaceXY sampleTransform sampleStore =
        some (f2, o2) ∧
      f2.exterior.surface =
        (transformSurfaceHandle sampleFaceXY.surface sampleTransform
          sampleStore).1 ∧
      ∀ c ∈ f2.interiors,
        c.surface =
          (transformSurfaceHandle sampleFaceXY.surface sampleTransform
            sampleStore).1 := by
  have hs : (Face.transform sampleFaceXY sampleTransform sampleStore).isSome
      = true := by decide
  cases h : Face.transform sampleFaceXY sampleTransform sampleStore with
  | none => rw [h] at hs; simp at hs
  | some p =>
    exact ⟨p.1, p.2, rfl,
      C7_face_transform_shares_surface sampleFaceXY sampleTransform
        sampleStore p.1 p.2 h⟩

/-- C10: transforming a face leaves its color attribute unchanged. -/
theorem C10_face_transform_keeps_color (f : Face) (tr : Transform)
    (o : Objects) (f2 : Face) (o2 : Objects)
    (h : f.transform tr o = some (f2, o2)) :
    f2.color = f.color := by
  unfold Face.transform at h
  simp only [Option.bind_eq_bind, Option.bind_eq_some, Option.some.injEq] at h
  obtain ⟨ext, hext, ⟨ints, o3⟩, hints, hf2⟩ := h
  cases hf2
  rfl

/-- C10 witness: at a concrete face, transform and store, the transformed
face exists and carries the color of the original. -/
theorem C10_witness :
    ∃ f2 o2, Face.transform sampleFaceXY sampleTransform sampleStore =
        some (f2, o2) ∧ f2.color = sampleFaceXY.color := by
  have hs : (Face.transform sampleFaceXY sampleTransform sampleStore).isSome
      = true := by decide
  cases h : Face.transform sampleFaceXY sampleTransform sampleStore with
  | none => rw [h] at hs; simp at hs
  | some p =>
    exact ⟨p.1, p.2, rfl,
      C10_face_transform_keeps_color sampleFaceXY sampleTransform
        sampleStore p.1 p.2 h⟩

/-- Reading an or-chain whose first option is present. -/
theorem optOr_some {α : Type} (a : α) (b : Option α) :
    optOr (some a) b = some a := rfl

/-- Reading an or-chain whose first option is absent. -/
theorem optOr_none {α : Type} (b : Option α) : optOr none b = b := rfl

/-- C4: deriving a line segment fails exactly when the builder has no
vertices, a vertex lacks a surface form, a surface can be determined
neither from the own surface field of the builder nor from the vertices,
or a surface position is missing; otherwise it succeeds. -/
theorem C4_as_line_segment_failure_conditions (e : PartialHalfEdge) :
    e.as_line_segment = none ↔
      (e.vertices = none ∨
        (∃ vf vt, e.vertices = some (vf, vt) ∧
          (vertexMPSurfaceForm vf = none ∨ vertexMPSurfaceForm vt = none)) ∨
        (∃ vf vt sf st, e.vertices = some (vf, vt) ∧
          vertexMPSurfaceForm vf = some sf ∧
          vertexMPSurfaceForm vt = some st ∧
          e.surface = none ∧ svMPSurface sf = none ∧
          svMPSurface st = none) ∨
        (∃ vf vt sf st, e.vertices = some (vf, vt) ∧
          vertexMPSurfaceForm vf = some sf ∧
          vertexMPSurfaceForm vt = some st ∧
          (svMPPosition sf = none ∨ svMPPosition st = none))) := by
  unfold PartialHalfEdge.as_line_segment
  cases hv : e.vertices with
  | none =>
    simp only [Option.bind_eq_bind, Option.none_bind]
    exact iff_of_true (by first | rfl | trivial)
      (Or.inl (by first | rfl | trivial))
  | some vv =>
    obtain ⟨vf, vt⟩ := vv
    simp only [Option.bind_eq_bind, Option.some_bind]
    cases hsf : vertexMPSurfaceForm vf with
    | none =>
      simp only [Option.none_bind]
      exact iff_of_true (by first | rfl | trivial)
        (Or.inr (Or.inl ⟨vf, vt, by first | rfl | trivial,
          Or.inl (by first | rfl | trivial | assumption)⟩))
    | some sf =>
      simp only [Option.some_bind]
      cases hst : vertexMPSurfaceForm vt with
      | none =>
        simp only [Option.none_bind]
        exact iff_of_true (by first | rfl | trivial)
          (Or.inr (Or.inl ⟨vf, vt, by first | rfl | trivial,
            Or.inr (by first | rfl | trivial | assumption)⟩))
      | some st =>
        simp only [Option.some_bind]
        cases hs : optOr e.surface
            (optOr (svMPSurface sf) (svMPSurface st)) with
        | none =>
          simp only [Option.none_bind]
          refine iff_of_true (by first | rfl | trivial) ?_
          cases hes : e.surface with
          | some s0 => rw [hes, optOr_some] at hs; exact Option.noConfusion hs
          | none =>
            rw [hes, optOr_none] at hs
            cases hssf : svMPSurface sf with
            | some s1 =>
              rw [hssf, optOr_some] at hs; exact Option.noConfusion hs
            | none =>
              rw [hssf, optOr_none] at hs
              exact Or.inr (Or.inr (Or.inl
                ⟨vf, vt, sf, st, by first | rfl | trivial,
                  by first | rfl | trivial | assumption,
                  by first | rfl | trivial | assumption,
                  by first | rfl | trivial | assumption,
                  by first | rfl | trivial | assumption,
                  by first | rfl | trivial | assumption⟩))
        | some s =>
          simp only [Option.some_bind]
          cases hpf : svMPPosition sf with
          | none =>
            simp only [Option.none_bind]
            exact iff_of_true (by first | rfl | trivial)
              (Or.inr (Or.inr (Or.inr
                ⟨vf, vt, sf, st, by first | rfl | trivial,
                  by first | rfl | trivial | assumption,
                  by first | rfl | trivial | assumption,
                  Or.inl (by first | rfl | trivial | assumption)⟩)))
          | some pf =>
            simp only [Option.some_bind]
            cases hpt : svMPPosition st with
            | none =>
              simp only [Option.none_bind]
              exact iff_of_true (by first | rfl | trivial)
                (Or.inr (Or.inr (Or.inr
                  ⟨vf, vt, sf, st, by first | rfl | trivial,
                    by first | rfl | trivial | assumption,
                    by first | rfl | trivial | assumption,
                    Or.inr (by first | rfl | trivial | assumption)⟩)))
            | some pt =>
              simp only [Option.some_bind]
              refine iff_of_false (by simp) ?_
              rintro (h1 | ⟨vf2, vt2, he, h2 | h2⟩ |
                ⟨vf2, vt2, sf2, st2, he, hf2, ht2, hes, h3, h4⟩ |
                ⟨vf2, vt2, sf2, st2, he, hf2, ht2, h5 | h5⟩)
              · exact Option.noConfusion h1
              · injection he with hpair
                cases hpair
                rw [hsf] at h2; exact Option.noConfusion h2
              · injection he with hpair
                cases hpair
                rw [hst] at h2; exact Option.noConfusion h2
              · injection he with hpair
                cases hpair
                rw [hsf] at hf2; injection hf2 with hf2; cases hf2
                rw [hst] at ht2; injection ht2 with ht2; cases ht2
                rw [hes, optOr_none, h3, optOr_none] at hs
                rw [h4] at hs; exact Option.noConfusion hs
              · injection he with hpair
                cases hpair
                rw [hsf] at hf2; injection hf2 with hf2; cases hf2
                rw [hpf] at h5; exact Option.noConfusion h5
              · injection he with hpair
                cases hpair
                rw [hst] at ht2; injection ht2 with ht2; cases ht2
                rw [hpt] at h5; exact Option.noConfusion h5

/-- C3 amended: with two vertices carrying surface positions and a
determinable surface, deriving a line segment resolves the shared global
curve by searching first the global form of the curve field and then the
curve of the global form field, constructs the local curve as the line
through the two surface points carrying that identity forward, and
re-derives the vertex curve coordinates as zero and one against the new
curve. -/
theorem C3_amended_line_segment (e : PartialHalfEdge)
    (vf vt : MaybePartialOf Vertex PartialVertex)
    (sf st : MaybePartialOf SurfaceVertex PartialSurfaceVertex)
    (s : Handle Surface) (pf pt : Vec2)
    (hv : e.vertices = some (vf, vt))
    (hsf : vertexMPSurfaceForm vf = some sf)
    (hst : vertexMPSurfaceForm vt = some st)
    (hs : optOr e.surface (optOr (svMPSurface sf) (svMPSurface st)) = some s)
    (hpf : svMPPosition sf = some pf)
    (hpt : svMPPosition st = some pt) :
    ∃ c : PartialCurve,
      e.as_line_segment = some { e with
        curve := some (.part c),
        vertices := some
          (vf.update PartialVertex.fromFull (fun v =>
            (v.with_position (some 0)).with_curve (some (.part c))),
            vt.update PartialVertex.fromFull (fun v =>
              (v.with_position (some 1)).with_curve (some (.part c)))) } ∧
      c.surface = some s ∧
      c.path = some (.line pf (v2sub pt pf)) ∧
      (∀ g, e.curve.bind curveMPGlobalForm = some g →
        c.global_form = some g) ∧
      (e.curve.bind curveMPGlobalForm = none →
        c.global_form = e.global_form.bind globalEdgeMPCurve) := by
  refine ⟨(({ PartialCurve.default with
      global_form := extractGlobalCurve e }).with_surface
    (some s)).as_line_from_points pf pt, ?_, ?_, ?_, ?_, ?_⟩
  · unfold PartialHalfEdge.as_line_segment
    rw [hv]
    simp only [Option.bind_eq_bind, Option.some_bind]
    rw [hsf, hst]
    simp only [Option.some_bind]
    rw [hs]
    simp only [Option.some_bind]
    rw [hpf, hpt]
    simp only [Option.some_bind]
  · simp [PartialCurve.with_surface, PartialCurve.as_line_from_points]
  · simp [PartialCurve.with_surface, PartialCurve.as_line_from_points]
  · intro g hg
    simp [PartialCurve.with_surface, PartialCurve.as_line_from_points,
      extractGlobalCurve, hg, optOr_some]
  · intro hg
    simp [PartialCurve.with_surface, PartialCurve.as_line_from_points,
      extractGlobalCurve, hg, optOr_none]

/-- Sample full vertex at the origin of the xy plane. -/
def c3VertexA : Vertex :=
  sampleVertexOn sampleSurfaceXY
    (sampleCurveOn sampleSurfaceXY ⟨0, 0⟩ ⟨1, 0⟩) 0 ⟨0, 0⟩

/-- Sample full vertex at the unit point of the xy plane. -/
def c3VertexB : Vertex :=
  sampleVertexOn sampleSurfaceXY
    (sampleCurveOn sampleSurfaceXY ⟨0, 0⟩ ⟨1, 0⟩) 1 ⟨1, 0⟩

/-- Sample half-edge builder holding two finished vertices. -/
def c3Edge : PartialHalfEdge :=
  { PartialHalfEdge.default with
    vertices := some (.full c3VertexA, .full c3VertexB) }

/-- C3 witness: at a concrete builder with two positioned vertices and a
determinable surface, the line segment derivation succeeds. -/
theorem C3_witness : (c3Edge.as_line_segment).isSome = true := by
  obtain ⟨c, hc, -, -, -, -⟩ := C3_amended_line_segment c3Edge
    (.full c3VertexA) (.full c3VertexB)
    (.full c3VertexA.surface_form) (.full c3VertexB.surface_form)
    sampleSurfaceXY ⟨0, 0⟩ ⟨1, 0⟩ rfl rfl rfl rfl rfl rfl
  rw [hc]
  rfl

/-- Sample vertex builder with a positioned surface form but no
surface. -/
def c3NoSurfaceVertexA : PartialVertex :=
  { PartialVertex.default with
    surface_form := some (.part
      { PartialSurfaceVertex.default with position := some ⟨0, 0⟩ }) }

/-- Sample vertex builder with another positioned surface form but no
surface. -/
def c3NoSurfaceVertexB : PartialVertex :=
  { PartialVertex.default with
    surface_form := some (.part
      { PartialSurfaceVertex.default with position := some ⟨1, 0⟩ }) }

/-- Sample half-edge builder whose two vertices carry surface positions
but no surface anywhere. -/
def c3NoSurfaceEdge : PartialHalfEdge :=
  { PartialHalfEdge.default with
    vertices := some (.part c3NoSurfaceVertexA, .part c3NoSurfaceVertexB) }

/-- C3 counterexample: a builder whose two vertices carry surface
positions, on which the line segment derivation nevertheless fails
because no surface is determinable, against the unconditional claim. -/
theorem C3_counterexample :
    (∃ sf, vertexMPSurfaceForm (.part c3NoSurfaceVertexA) = some sf ∧
      svMPPosition sf = some ⟨0, 0⟩) ∧
    (∃ st, vertexMPSurfaceForm (.part c3NoSurfaceVertexB) = some st ∧
      svMPPosition st = some ⟨1, 0⟩) ∧
    c3NoSurfaceEdge.vertices =
      some (.part c3NoSurfaceVertexA, .part c3NoSurfaceVertexB) ∧
    c3NoSurfaceEdge.as_line_segment = none :=
  ⟨⟨_, rfl, rfl⟩, ⟨_, rfl, rfl⟩, rfl, rfl⟩


/-- C2 amended: for a half-edge builder whose curve and vertices are
present and finalizable and whose global form is absent, finalization
succeeds and derives the global form canonically from the finalized curve
and the finalized vertices through the curve-and-vertices derivation of
the global edge builder, after resolving the curve surface from the own
surface field of the half-edge and propagating the finalized curve into
each vertex before finalizing it. -/
theorem C2_amended_build_derives_global_form (e : PartialHalfEdge)
    (cm : MaybePartialOf (Handle Curve) PartialCurve)
    (vm1 vm2 : MaybePartialOf Vertex PartialVertex)
    (o o1 o2 o3 : Objects) (c : Handle Curve) (v1 v2 : Vertex)
    (hcur : e.curve = some cm)
    (hvert : e.vertices = some (vm1, vm2))
    (hglob : e.global_form = none)
    (hc : curveIntoFull
      (cm.update PartialCurve.fromFull (fun pc =>
        pc.with_surface e.surface)) o = some (c, o1))
    (hv1 : vertexIntoFull
      (vm1.update PartialVertex.fromFull (fun v =>
        v.with_curve (some (.full c)))) o1 = some (v1, o2))
    (hv2 : vertexIntoFull
      (vm2.update PartialVertex.fromFull (fun v =>
        v.with_curve (some (.full c)))) o2 = some (v2, o3)) :
    ∃ ge o4,
      (PartialGlobalEdge.default.from_curve_and_vertices c.val
        (v1, v2)).build o3 = some (ge, o4) ∧
      e.build o = some (HalfEdge.new (v1, v2) ge, o4) := by
  refine ⟨GlobalEdge.new c.val.global_form
    (v1.global_form, v2.global_form), o3, rfl, ?_⟩
  unfold PartialHalfEdge.build
  rw [hcur]
  simp only [Option.bind_eq_bind, Option.some_bind]
  rw [hc]
  simp only [Option.some_bind]
  rw [hvert]
  simp only [Option.some_bind]
  rw [hv1]
  simp only [Option.some_bind]
  rw [hv2]
  simp only [Option.some_bind]
  rw [hglob]
  simp [globalEdgeIntoFull, MaybePartialOf.intoFull,
    PartialGlobalEdge.build, PartialGlobalEdge.from_curve_and_vertices,
    PartialGlobalEdge.with_curve, PartialGlobalEdge.with_vertices,
    PartialGlobalEdge.default]

/-- Sample half-edge builder read back from a finished half-edge, with
the global form dropped. -/
def c2WitnessEdge : PartialHalfEdge :=
  { PartialHalfEdge.fromFull sampleHalfEdge with global_form := none }

/-- The curve handle finalization rebuilds for the sample builder. -/
def c2wCurve : Handle Curve :=
  ⟨100, (sampleCurveOn sampleSurfaceXY ⟨0, 0⟩ ⟨1, 0⟩).val⟩

/-- The first finalized vertex of the sample builder. -/
def c2wV1 : Vertex := { sampleHalfEdge.vertices.1 with curve := c2wCurve }

/-- The second finalized vertex of the sample builder. -/
def c2wV2 : Vertex := { sampleHalfEdge.vertices.2 with curve := c2wCurve }

/-- C2 witness: at a concrete finalizable builder without a global form,
finalization succeeds. -/
theorem C2_witness : (c2WitnessEdge.build sampleStore).isSome = true := by
  obtain ⟨ge, o4, hge, hb⟩ := C2_amended_build_derives_global_form
    c2WitnessEdge (.full sampleHalfEdge.curve)
    (.full sampleHalfEdge.vertices.1) (.full sampleHalfEdge.vertices.2)
    sampleStore ⟨101⟩ ⟨101⟩ ⟨101⟩ c2wCurve c2wV1 c2wV2
    rfl rfl rfl (by with_unfolding_all decide) (by with_unfolding_all decide)
    (by with_unfolding_all decide)
  rw [hb]
  rfl

/-- Sample half-edge builder whose curve field is present but holds an
empty curve builder. -/
def c2BadEdge : PartialHalfEdge :=
  { PartialHalfEdge.default with
    curve := some (.part PartialCurve.default),
    vertices := some (.full c3VertexA, .full c3VertexB),
    global_form := none }

/-- C2 counterexample: a builder whose curve and vertices fields are
present and whose global form is absent, on which finalization
nevertheless fails because the present curve builder has no path, against
the unconditional claim. -/
theorem C2_counterexample :
    c2BadEdge.curve.isSome = true ∧ c2BadEdge.vertices.isSome = true ∧
    c2BadEdge.global_form = none ∧
    c2BadEdge.build sampleStore = none := ⟨rfl, rfl, rfl, by decide⟩


/-- C8: reading a finished half-edge back into a builder and finalizing
it reproduces a half-edge structurally equal to the original, for every
half-edge whose two vertices lie on one curve. -/
theorem C8_roundtrip_structural_equality (h : HalfEdge) (o : Objects)
    (hwf : curveEqv h.vertices.1.curve h.vertices.2.curve) :
    ∃ h2 o2, (PartialHalfEdge.fromFull h).build o = some (h2, o2) ∧
      halfEdgeEqv h2 h := by
  obtain ⟨hpath, hsurf, hgc⟩ := hwf
  refine ⟨HalfEdge.new
    (⟨h.vertices.1.position, ⟨o.nextId, h.curve.val⟩,
        h.vertices.1.surface_form, h.vertices.1.global_form⟩,
      ⟨h.vertices.2.position, ⟨o.nextId, h.curve.val⟩,
        h.vertices.2.surface_form, h.vertices.2.global_form⟩)
    h.global_form, o.bump, ?_, ?_⟩
  · rfl
  · exact ⟨⟨rfl, ⟨rfl, rfl, rfl⟩, ⟨rfl, rfl, rfl⟩, rfl⟩,
      ⟨rfl, ⟨hpath, hsurf, hgc⟩, ⟨rfl, rfl, rfl⟩, rfl⟩,
      ⟨rfl, rfl, rfl⟩⟩

/-- C8 witness: the round trip applied to a concrete half-edge. -/
theorem C8_witness :
    curveEqv sampleHalfEdge.vertices.1.curve
      sampleHalfEdge.vertices.2.curve ∧
    ∃ h2 o2,
      (PartialHalfEdge.fromFull sampleHalfEdge).build sampleStore =
        some (h2, o2) ∧ halfEdgeEqv h2 sampleHalfEdge :=
  ⟨by with_unfolding_all decide,
    C8_roundtrip_structural_equality sampleHalfEdge sampleStore
      (by with_unfolding_all decide)⟩


/-- C1: the face-face intersection first intersects the two surfaces and
returns none when they do not intersect; otherwise it restricts each of
the two local curves against its own originating face, merges the two
interval sets, returns none when the merged set is empty and otherwise
returns both local curves together with the merged intervals. -/
theorem C1_face_face_intersection_steps (faces : Face × Face)
    (o : Objects) :
    (SurfaceSurfaceIntersection.compute faces.1.surface faces.2.surface o
        = none →
      FaceFaceIntersection.compute faces o = none) ∧
    (∀ ssi,
      SurfaceSurfaceIntersection.compute faces.1.surface faces.2.surface o
          = some ssi →
      ((((CurveFaceIntersection.compute ssi.intersection_curves.1
            faces.1).merge
          (CurveFaceIntersection.compute ssi.intersection_curves.2
            faces.2)).is_empty = true →
        FaceFaceIntersection.compute faces o = none) ∧
       (((CurveFaceIntersection.compute ssi.intersection_curves.1
            faces.1).merge
          (CurveFaceIntersection.compute ssi.intersection_curves.2
            faces.2)).is_empty = false →
        FaceFaceIntersection.compute faces o = some
          ⟨ssi.intersection_curves,
            (CurveFaceIntersection.compute ssi.intersection_curves.1
              faces.1).merge
              (CurveFaceIntersection.compute ssi.intersection_curves.2
                faces.2)⟩))) := by
  constructor
  · intro h0
    unfold FaceFaceIntersection.compute
    rw [h0]
    rfl
  · intro ssi hssi
    constructor
    · intro hemp
      unfold FaceFaceIntersection.compute
      rw [hssi]
      simp only [Option.bind_eq_bind, Option.some_bind]
      simp [hemp]
    · intro hemp
      unfold FaceFaceIntersection.compute
      rw [hssi]
      simp only [Option.bind_eq_bind, Option.some_bind]
      simp [hemp]

/-- The local intersection curve the sample intersection produces on the
xy plane. -/
def c1wCurveA : Handle Curve :=
  ⟨101, ⟨sampleSurfaceXY, .line ⟨0, 0⟩ ⟨1, 0⟩, ⟨100, ⟨⟩⟩⟩⟩

/-- The local intersection curve the sample intersection produces on the
xz plane. -/
def c1wCurveB : Handle Curve :=
  ⟨102, ⟨sampleSurfaceXZ, .line ⟨0, 0⟩ ⟨1, 0⟩, ⟨100, ⟨⟩⟩⟩⟩

/-- C1 witness: the intersection of the two concrete perpendicular unit
squares goes through the surface intersection, per-face restriction and
merge, and returns both curves plus the merged intervals. -/
theorem C1_witness :
    FaceFaceIntersection.compute (sampleFaceXY, sampleFaceXZ) sampleStore =
      some ⟨(c1wCurveA, c1wCurveB),
        (CurveFaceIntersection.compute c1wCurveA sampleFaceXY).merge
          (CurveFaceIntersection.compute c1wCurveB sampleFaceXZ)⟩ :=
  ((C1_face_face_intersection_steps (sampleFaceXY, sampleFaceXZ)
      sampleStore).2 ⟨(c1wCurveA, c1wCurveB)⟩
    (by with_unfolding_all decide)).2 (by with_unfolding_all decide)


/-- Swapping the arguments of the cross product negates it. -/
theorem cross3_swap (a b : Vec3) : cross3 b a = v3smul (-1) (cross3 a b) := by
  obtain ⟨a1, a2, a3⟩ := a
  obtain ⟨b1, b2, b3⟩ := b
  simp only [cross3, v3smul, Vec3.mk.injEq]
  refine ⟨by ring, by ring, by ring⟩

/-- Negating a vector twice is the identity. -/
theorem v3smul_neg_neg (d : Vec3) : v3smul (-1) (v3smul (-1) d) = d := by
  obtain ⟨x, y, z⟩ := d
  simp only [v3smul, Vec3.mk.injEq]
  refine ⟨by ring, by ring, by ring⟩

/-- A negated vector is zero exactly when the vector is. -/
theorem v3smul_neg_eq_zero (d : Vec3) :
    v3smul (-1) d = v3zero ↔ d = v3zero := by
  obtain ⟨x, y, z⟩ := d
  simp [v3smul, v3zero, Vec3.mk.injEq, neg_eq_zero]

/-- For a nonzero vector, the negation is lexicographically positive
exactly when the vector is not. -/
theorem lexPos_neg_iff (d : Vec3) (hd : d ≠ v3zero) :
    lexPos (v3smul (-1) d) ↔ ¬ lexPos d := by
  obtain ⟨x, y, z⟩ := d
  have hd2 : ¬ (x = 0 ∧ y = 0 ∧ z = 0) := by
    intro ⟨h1, h2, h3⟩
    exact hd (by simp [v3zero, h1, h2, h3])
  simp only [lexPos, v3smul, neg_mul, one_mul]
  constructor
  · rintro (h | ⟨h0, h | ⟨h1, h⟩⟩) <;> push_neg
    · refine ⟨by linarith, fun hx0 => ?_⟩
      exfalso; rw [hx0] at h; simp at h
    · rw [neg_eq_zero] at h0
      refine ⟨by linarith, fun _ => ⟨by linarith, fun hy0 => ?_⟩⟩
      exfalso; rw [hy0] at h; simp at h
    · rw [neg_eq_zero] at h0 h1
      exact ⟨by linarith, fun _ => ⟨by linarith, fun _ => by linarith⟩⟩
  · intro hn
    push_neg at hn
    obtain ⟨hx, hrest⟩ := hn
    rcases lt_or_eq_of_le hx with hx | hx
    · exact Or.inl (by linarith)
    · obtain ⟨hy, hrest2⟩ := hrest hx
      rcases lt_or_eq_of_le hy with hy | hy
      · exact Or.inr ⟨by rw [hx]; ring, Or.inl (by linarith)⟩
      · have hz := hrest2 hy
        rcases lt_or_eq_of_le hz with hz | hz
        · exact Or.inr ⟨by rw [hx]; ring,
            Or.inr ⟨by rw [hy]; ring, by linarith⟩⟩
        · exact absurd ⟨hx, hy, hz⟩ hd2

/-- The canonical orientation of a direction is unchanged by
negation. -/
theorem canonDir_neg (d : Vec3) (hd : d ≠ v3zero) :
    canonDir (v3smul (-1) d) = canonDir d := by
  unfold canonDir
  by_cases h : lexPos d
  · rw [if_neg (fun hx => ((lexPos_neg_iff d hd).mp hx) h), if_pos h,
      v3smul_neg_neg]
  · rw [if_pos ((lexPos_neg_iff d hd).mpr h), if_neg h]

/-- The origin of the intersection line of two planes is symmetric under
swapping the planes. -/
theorem pPoint_symm (n1 n2 : Vec3) (q1 q2 : Scalar) :
    v3smul (1 / dot3 (cross3 n2 n1) (cross3 n2 n1))
      (v3add (v3smul q2 (cross3 n1 (cross3 n2 n1)))
        (v3smul q1 (cross3 (cross3 n2 n1) n2))) =
    v3smul (1 / dot3 (cross3 n1 n2) (cross3 n1 n2))
      (v3add (v3smul q1 (cross3 n2 (cross3 n1 n2)))
        (v3smul q2 (cross3 (cross3 n1 n2) n1))) := by
  obtain ⟨a1, a2, a3⟩ := n1
  obtain ⟨b1, b2, b3⟩ := n2
  have hD : dot3 (cross3 ⟨b1, b2, b3⟩ ⟨a1, a2, a3⟩)
      (cross3 ⟨b1, b2, b3⟩ ⟨a1, a2, a3⟩) =
      dot3 (cross3 ⟨a1, a2, a3⟩ ⟨b1, b2, b3⟩)
        (cross3 ⟨a1, a2, a3⟩ ⟨b1, b2, b3⟩) := by
    simp only [cross3, dot3]
    ring
  have hN : v3add (v3smul q2 (cross3 ⟨a1, a2, a3⟩
        (cross3 ⟨b1, b2, b3⟩ ⟨a1, a2, a3⟩)))
      (v3smul q1 (cross3 (cross3 ⟨b1, b2, b3⟩ ⟨a1, a2, a3⟩) ⟨b1, b2, b3⟩)) =
      v3add (v3smul q1 (cross3 ⟨b1, b2, b3⟩
        (cross3 ⟨a1, a2, a3⟩ ⟨b1, b2, b3⟩)))
        (v3smul q2 (cross3 (cross3 ⟨a1, a2, a3⟩ ⟨b1, b2, b3⟩)
          ⟨a1, a2, a3⟩)) := by
    simp only [cross3, v3smul, v3add, Vec3.mk.injEq]
    refine ⟨by ring, by ring, by ring⟩
  rw [hD, hN]


/-- If two surfaces do not intersect, neither do they in the swapped
order. -/
theorem ssi_compute_swap_none (s1 s2 : Handle Surface) (o : Objects)
    (h : SurfaceSurfaceIntersection.compute s1 s2 o = none) :
    SurfaceSurfaceIntersection.compute s2 s1 o = none := by
  unfold SurfaceSurfaceIntersection.compute at h ⊢
  by_cases hz : cross3 (cross3 s1.val.u s1.val.v)
      (cross3 s2.val.u s2.val.v) = v3zero
  · rw [if_pos (by rw [cross3_swap]; exact (v3smul_neg_eq_zero _).mpr hz)]
  · rw [if_neg hz] at h
    exact absurd h (by simp)

/-- If two surfaces intersect, they intersect in the swapped order with
the same two local curve values, swapped. -/
theorem ssi_compute_swap (s1 s2 : Handle Surface) (o : Objects)
    (ssi : SurfaceSurfaceIntersection)
    (h : SurfaceSurfaceIntersection.compute s1 s2 o = some ssi) :
    ∃ ssi2, SurfaceSurfaceIntersection.compute s2 s1 o = some ssi2 ∧
      ssi2.intersection_curves.1.val = ssi.intersection_curves.2.val ∧
      ssi2.intersection_curves.2.val = ssi.intersection_curves.1.val := by
  unfold SurfaceSurfaceIntersection.compute at h ⊢
  by_cases hz : cross3 (cross3 s1.val.u s1.val.v)
      (cross3 s2.val.u s2.val.v) = v3zero
  · rw [if_pos hz] at h
    exact absurd h (by simp)
  · rw [if_neg hz] at h
    injection h with h
    have hz2 : ¬ cross3 (cross3 s2.val.u s2.val.v)
        (cross3 s1.val.u s1.val.v) = v3zero := by
      rw [cross3_swap]
      exact fun hc => hz ((v3smul_neg_eq_zero _).mp hc)
    rw [if_neg hz2]
    have hd : canonDir (cross3 (cross3 s2.val.u s2.val.v)
        (cross3 s1.val.u s1.val.v)) =
        canonDir (cross3 (cross3 s1.val.u s1.val.v)
          (cross3 s2.val.u s2.val.v)) := by
      rw [cross3_swap]
      exact canonDir_neg _ hz
    have hp := pPoint_symm (cross3 s1.val.u s1.val.v)
      (cross3 s2.val.u s2.val.v) (dot3 (cross3 s1.val.u s1.val.v)
        s1.val.origin) (dot3 (cross3 s2.val.u s2.val.v) s2.val.origin)
    refine ⟨_, rfl, ?_, ?_⟩ <;> rw [hd, hp, ← h]

/-- The curve-face intersection depends on the curve only through its
path. -/
theorem cfi_compute_path (c c2 : Handle Curve) (f : Face)
    (h : c.val.path = c2.val.path) :
    CurveFaceIntersection.compute c f =
      CurveFaceIntersection.compute c2 f := by
  unfold CurveFaceIntersection.compute
  rw [h]

/-- Both local curves of a surface-surface intersection denote the same
global curve. -/
theorem ssi_shares_global (s1 s2 : Handle Surface) (o : Objects)
    (ssi : SurfaceSurfaceIntersection)
    (h : SurfaceSurfaceIntersection.compute s1 s2 o = some ssi) :
    ssi.intersection_curves.1.val.global_form =
      ssi.intersection_curves.2.val.global_form := by
  unfold SurfaceSurfaceIntersection.compute at h
  by_cases hz : cross3 (cross3 s1.val.u s1.val.v)
      (cross3 s2.val.u s2.val.v) = v3zero
  · rw [if_pos hz] at h
    exact absurd h (by simp)
  · rw [if_neg hz] at h
    injection h with h
    rw [← h]

/-- Overlapping two intervals does not depend on their order. -/
theorem intervalIntersect_comm (a b : Scalar × Scalar) :
    intervalIntersect a b = intervalIntersect b a := by
  unfold intervalIntersect
  rw [max_comm b.1 a.1, min_comm b.2 a.2]

/-- Filtering a list with one more element in front. -/
theorem filterMap_cons_toList {α β : Type} (g : α → Option β) (a : α)
    (l : List α) :
    (a :: l).filterMap g = (g a).toList ++ l.filterMap g := by
  cases h : g a <;> simp [List.filterMap_cons, h]

/-- Filtering is flat-mapping over the option contents. -/
theorem filterMap_eq_flatMap {α β : Type} (g : α → Option β) (l : List α) :
    l.filterMap g = l.flatMap (fun a => (g a).toList) := by
  induction l with
  | nil => simp
  | cons a l ih => cases h : g a <;> simp [List.filterMap_cons, h, ih]

/-- Flat-mapping a pointwise append is a permutation of the append of
the two flat-maps. -/
theorem flatMap_append_perm {β γ : Type} (g h : β → List γ) (y : List β) :
    (y.flatMap fun b => g b ++ h b).Perm (y.flatMap g ++ y.flatMap h) := by
  induction y with
  | nil => simp
  | cons b y ih =>
    simp only [List.flatMap_cons]
    refine ((ih.append_left (g b ++ h b))).trans ?_
    have h1 : h b ++ (y.flatMap g ++ y.flatMap h) =
        (h b ++ y.flatMap g) ++ y.flatMap h := by
      rw [List.append_assoc]
    have h2 : y.flatMap g ++ (h b ++ y.flatMap h) =
        (y.flatMap g ++ h b) ++ y.flatMap h := by
      rw [List.append_assoc]
    rw [List.append_assoc, List.append_assoc]
    refine List.Perm.append_left (g b) ?_
    rw [h1, h2]
    exact (List.perm_append_comm).append_right _

/-- Exchanging the two lists of a nested filtered flat-map is a
permutation. -/
theorem flatMap_filterMap_swap_perm {α β γ : Type} (f : α → β → Option γ)
    (x : List α) (y : List β) :
    (x.flatMap fun a => y.filterMap fun b => f a b).Perm
      (y.flatMap fun b => x.filterMap fun a => f a b) := by
  induction x with
  | nil =>
    simp only [List.flatMap_nil, List.filterMap_nil]
    have : (y.flatMap fun b => ([] : List γ)) = [] := by
      induction y with
      | nil => rfl
      | cons b y ih => simp [ih]
    rw [this]
  | cons a x ih =>
    simp only [List.flatMap_cons, filterMap_cons_toList]
    refine List.Perm.trans ?_ (flatMap_append_perm _ _ y).symm
    rw [filterMap_eq_flatMap]
    exact ih.append_left _

/-- Merging two interval sets in either order gives the same intervals up
to ordering. -/
theorem merge_swap_perm (a b : CurveFaceIntersection) :
    (a.merge b).intervals.Perm (b.merge a).intervals := by
  unfold CurveFaceIntersection.merge
  refine List.Perm.trans (flatMap_filterMap_swap_perm
    (fun i j => intervalIntersect i j) a.intervals b.intervals) ?_
  have hcomm : (fun j => a.intervals.filterMap fun i =>
      intervalIntersect i j) = (fun j => a.intervals.filterMap fun i =>
      intervalIntersect j i) := by
    funext j
    congr 1
    funext i
    exact intervalIntersect_comm i j
  rw [hcomm]

/-- Two lists that are permutations of each other are empty together. -/
theorem perm_isEmpty {α : Type} {l1 l2 : List α} (h : l1.Perm l2) :
    l1.isEmpty = l2.isEmpty := by
  cases l1 with
  | nil =>
    rw [List.nil_perm] at h
    rw [h]
  | cons a t =>
    cases l2 with
    | nil => exact absurd h (by simp)
    | cons b t2 => rfl


/-- C9: the face-face intersection is symmetric: computing with the faces
swapped yields the same intersection intervals up to ordering and local
curves with the same values swapped, all denoting the same global
curve. -/
theorem C9_face_face_intersection_symmetry (fa fb : Face) (o : Objects) :
    (FaceFaceIntersection.compute (fa, fb) o = none ↔
      FaceFaceIntersection.compute (fb, fa) o = none) ∧
    (∀ r1 r2, FaceFaceIntersection.compute (fa, fb) o = some r1 →
      FaceFaceIntersection.compute (fb, fa) o = some r2 →
      r2.intersection_curves.1.val = r1.intersection_curves.2.val ∧
      r2.intersection_curves.2.val = r1.intersection_curves.1.val ∧
      globalCurveEqv r1.intersection_curves.1.val.global_form
        r1.intersection_curves.2.val.global_form ∧
      globalCurveEqv r1.intersection_curves.1.val.global_form
        r2.intersection_curves.1.val.global_form ∧
      r1.intersection_intervals.intervals.Perm
        r2.intersection_intervals.intervals) := by
  cases hssi : SurfaceSurfaceIntersection.compute fa.surface fb.surface o with
  | none =>
    have hssi2 := ssi_compute_swap_none _ _ _ hssi
    have h1 : FaceFaceIntersection.compute (fa, fb) o = none := by
      unfold FaceFaceIntersection.compute
      rw [hssi]
      rfl
    have h2 : FaceFaceIntersection.compute (fb, fa) o = none := by
      unfold FaceFaceIntersection.compute
      rw [hssi2]
      rfl
    refine ⟨by rw [h1, h2], ?_⟩
    intro r1 r2 hr1 _
    rw [h1] at hr1
    exact absurd hr1 (by simp)
  | some ssi =>
    obtain ⟨ssi2, hssi2, hv1, hv2⟩ := ssi_compute_swap _ _ _ _ hssi
    have hA : CurveFaceIntersection.compute ssi2.intersection_curves.1 fb =
        CurveFaceIntersection.compute ssi.intersection_curves.2 fb :=
      cfi_compute_path _ _ _ (by rw [hv1])
    have hB : CurveFaceIntersection.compute ssi2.intersection_curves.2 fa =
        CurveFaceIntersection.compute ssi.intersection_curves.1 fa :=
      cfi_compute_path _ _ _ (by rw [hv2])
    have hperm : ((CurveFaceIntersection.compute
        ssi.intersection_curves.1 fa).merge
        (CurveFaceIntersection.compute
          ssi.intersection_curves.2 fb)).intervals.Perm
        ((CurveFaceIntersection.compute
          ssi2.intersection_curves.1 fb).merge
          (CurveFaceIntersection.compute
            ssi2.intersection_curves.2 fa)).intervals := by
      rw [hA, hB]
      exact merge_swap_perm _ _
    have hemp : ((CurveFaceIntersection.compute
        ssi.intersection_curves.1 fa).merge
        (CurveFaceIntersection.compute
          ssi.intersection_curves.2 fb)).is_empty =
        ((CurveFaceIntersection.compute
          ssi2.intersection_curves.1 fb).merge
          (CurveFaceIntersection.compute
            ssi2.intersection_curves.2 fa)).is_empty :=
      perm_isEmpty hperm
    have h1 : FaceFaceIntersection.compute (fa, fb) o =
        if ((CurveFaceIntersection.compute
            ssi.intersection_curves.1 fa).merge
          (CurveFaceIntersection.compute
            ssi.intersection_curves.2 fb)).is_empty = true then none
        else some ⟨ssi.intersection_curves,
          (CurveFaceIntersection.compute
            ssi.intersection_curves.1 fa).merge
            (CurveFaceIntersection.compute
              ssi.intersection_curves.2 fb)⟩ := by
      unfold FaceFaceIntersection.compute
      rw [hssi]
      rfl
    have h2 : FaceFaceIntersection.compute (fb, fa) o =
        if ((CurveFaceIntersection.compute
            ssi2.intersection_curves.1 fb).merge
          (CurveFaceIntersection.compute
            ssi2.intersection_curves.2 fa)).is_empty = true then none
        else some ⟨ssi2.intersection_curves,
          (CurveFaceIntersection.compute
            ssi2.intersection_curves.1 fb).merge
            (CurveFaceIntersection.compute
              ssi2.intersection_curves.2 fa)⟩ := by
      unfold FaceFaceIntersection.compute
      rw [hssi2]
      rfl
    cases hbe : ((CurveFaceIntersection.compute
        ssi.intersection_curves.1 fa).merge
        (CurveFaceIntersection.compute
          ssi.intersection_curves.2 fb)).is_empty with
    | true =>
      have h1n : FaceFaceIntersection.compute (fa, fb) o = none := by
        rw [h1, if_pos hbe]
      have h2n : FaceFaceIntersection.compute (fb, fa) o = none := by
        rw [h2, if_pos (by rw [← hemp]; exact hbe)]
      refine ⟨by rw [h1n, h2n], ?_⟩
      intro r1 r2 hr1 _
      rw [h1n] at hr1
      exact absurd hr1 (by simp)
    | false =>
      have h1s : FaceFaceIntersection.compute (fa, fb) o =
          some ⟨ssi.intersection_curves,
            (CurveFaceIntersection.compute
              ssi.intersection_curves.1 fa).merge
              (CurveFaceIntersection.compute
                ssi.intersection_curves.2 fb)⟩ := by
        rw [h1, if_neg (by rw [hbe]; simp)]
      have h2s : FaceFaceIntersection.compute (fb, fa) o =
          some ⟨ssi2.intersection_curves,
            (CurveFaceIntersection.compute
              ssi2.intersection_curves.1 fb).merge
              (CurveFaceIntersection.compute
                ssi2.intersection_curves.2 fa)⟩ := by
        rw [h2, if_neg (by rw [← hemp, hbe]; simp)]
      constructor
      · rw [h1s, h2s]
        simp
      · intro r1 r2 hr1 hr2
        rw [h1s] at hr1
        rw [h2s] at hr2
        injection hr1 with hr1
        injection hr2 with hr2
        subst hr1
        subst hr2
        refine ⟨hv1, hv2, ?_, ?_, hperm⟩
        · show _ = _
          exact congrArg Handle.id (ssi_shares_global _ _ _ _ hssi)
        · show ssi.intersection_curves.1.val.global_form.id =
            ssi2.intersection_curves.1.val.global_form.id
          rw [hv1]
          exact congrArg Handle.id (ssi_shares_global _ _ _ _ hssi)


/-- The sample intersection result for the pair in xy, xz order. -/
def c9Result1 : FaceFaceIntersection :=
  ⟨(c1wCurveA, c1wCurveB), ⟨[(-1, 1)]⟩⟩

/-- The sample intersection result for the pair in xz, xy order. -/
def c9Result2 : FaceFaceIntersection :=
  ⟨(⟨101, c1wCurveB.val⟩, ⟨102, c1wCurveA.val⟩), ⟨[(-1, 1)]⟩⟩

/-- C9 witness: the symmetry applied to the two concrete perpendicular
unit squares. -/
theorem C9_witness :
    c9Result2.intersection_curves.1.val =
      c9Result1.intersection_curves.2.val ∧
    c9Result2.intersection_curves.2.val =
      c9Result1.intersection_curves.1.val ∧
    globalCurveEqv c9Result1.intersection_curves.1.val.global_form
      c9Result1.intersection_curves.2.val.global_form ∧
    globalCurveEqv c9Result1.intersection_curves.1.val.global_form
      c9Result2.intersection_curves.1.val.global_form ∧
    c9Result1.intersection_intervals.intervals.Perm
      c9Result2.intersection_intervals.intervals :=
  (C9_face_face_intersection_symmetry sampleFaceXY sampleFaceXZ
      sampleStore).2 c9Result1 c9Result2
    (by with_unfolding_all decide) (by with_unfolding_all decide)


end Fornjot
